import Mathlib

/-!
# Verification of the netdev_config_from_file device-configuration engine

A shallow embedding of `src/netdev_config_from_file.py` and proofs about it.
Text is modelled as `List Char`; the opaque remote-session collaborator is
modelled as an environment of `Except`-valued operations; the `async with`
block is modelled as explicit open/close events around the body, mirroring
Python's guarantee that the context manager's exit runs on every exit path.
-/

set_option maxRecDepth 4000

namespace NetdevConfig

/-- Characters of a string literal; all model text is `List Char`. -/
def lc (s : String) : List Char := s.data

/-- Python's `\s` character class, restricted to ASCII whitespace
(`' '`, `'\t'`, `'\n'`, `'\x0b'`, `'\x0c'`, `'\r'`), which is what the
regexes in the source ever meet. -/
def isSpace (c : Char) : Bool :=
  c = ' ' || c = '\t' || c = '\n' || c = '\x0b' || c = '\x0c' || c = '\r'

/-- Substring test (`needle in hay` in Python). -/
def containsSub : List Char → List Char → Bool
  | needle, [] => needle.isPrefixOf []
  | needle, c :: t => needle.isPrefixOf (c :: t) || containsSub needle t

/-- Python `hay.find(needle)`: lowest index at which `needle` occurs in
`hay`, `none` standing for `-1`. -/
def pyFind : List Char → List Char → Option Nat
  | needle, [] => if needle.isEmpty then some 0 else none
  | needle, c :: t =>
    if needle.isPrefixOf (c :: t) then some 0 else (pyFind needle t).map (· + 1)

/-- The test `sh_ver.find(version) > 0` from `software_ver_check`
(line 68 of the source): true iff the lowest-index occurrence of the
marker is at a strictly positive position. -/
def foundPos (needle hay : List Char) : Bool :=
  match pyFind needle hay with
  | some i => decide (0 < i)
  | none => false

/-- Claim-side predicate: the marker occurs as a substring of the text at
some position strictly greater than 0 (not necessarily its first
occurrence).  Used to state C4 as written. -/
def occursPos (needle hay : List Char) : Bool :=
  (List.range (hay.length + 1)).any
    (fun i => decide (0 < i) && needle.isPrefixOf (hay.drop i))

/-- The fixed ordered marker list of `software_ver_check` (lines 56-63). -/
def version_list : List (List Char) :=
  [lc "IOS XE", lc "NX-OS", lc "C2960X-UNIVERSALK9-M",
   lc "vios_l2-ADVENTERPRISEK9-M", lc "VIOS-ADVENTERPRISEK9-M", lc "Junos"]

/-- The `for version in version_list: ... if int_version > 0: break` loop
(lines 65-69).  `cur` is the value the loop variable had before the loop;
when the list is exhausted without a break the loop variable keeps the
last element tried. -/
def loopPick (sv : List Char) : List (List Char) → List Char → List Char
  | [], cur => cur
  | v :: rest, _ =>
    if foundPos v sv then v else loopPick sv rest v

/-- Identifier for the three compiled hostname regexes of
`software_ver_check` (lines 71-78). -/
inductive HPattern where
  | nxos
  | junos
  | ciscoDefault
deriving DecidableEq

/-- `software_ver_check` (lines 54-80): pick the family marker by the
loop, then return the singleton list holding the family's regex. -/
def software_ver_check (sv : List Char) : List HPattern :=
  let version := loopPick sv version_list []
  if version = lc "NX-OS" then [HPattern.nxos]
  else if version = lc "Junos" then [HPattern.junos]
  else [HPattern.ciscoDefault]

/-- Claim-side version of the family-to-regex mapping, applied to a
marker value (the same branches as lines 71-78). -/
def patternFor (version : List Char) : List HPattern :=
  if version = lc "NX-OS" then [HPattern.nxos]
  else if version = lc "Junos" then [HPattern.junos]
  else [HPattern.ciscoDefault]

/-- Claim-side declarative selection: the first marker in list order whose
first occurrence in the text is at a strictly positive position; `Junos`
(the last marker iterated) when no marker qualifies. -/
def firstMatchMarker (t : List Char) : List Char :=
  (version_list.find? (fun m => foundPos m t)).getD (lc "Junos")

/-- Literal `Device name:` from the NX-OS regex. -/
def deviceNameLit : List Char := lc "Device name:"

/-- Literal `Hostname:` from the Junos regex. -/
def hostnameLit : List Char := lc "Hostname:"

/-- Literal `uptime` from the default Cisco regex. -/
def uptimeLit : List Char := lc "uptime"

/-- Suffixes of the text starting right after each `'\n'`, in order. -/
def tailsAfterNewline : List Char → List (List Char)
  | [] => []
  | c :: t =>
    if c = '\n' then t :: tailsAfterNewline t else tailsAfterNewline t

/-- All line-start suffixes of the text, leftmost first.  With `re.M`,
`^` matches exactly at these positions, so a search for a `^`-anchored
pattern tries these suffixes in order. -/
def lineStarts (l : List Char) : List (List Char) :=
  l :: tailsAfterNewline l

/-- Match of `(^\s+)+(Device name:)\s(?P<hostname>\S+)` (re.M) at one
line start: one or more whitespace characters, then `Device name:`, one
whitespace character, then the captured maximal nonempty run of
non-whitespace characters. -/
def matchNxosAt (l : List Char) : Option (List Char) :=
  let ind := l.takeWhile isSpace
  let r := l.dropWhile isSpace
  if ind.isEmpty then none
  else if deviceNameLit.isPrefixOf r then
    match r.drop deviceNameLit.length with
    | [] => none
    | c :: rest =>
      if isSpace c then
        let w := rest.takeWhile (fun x => !isSpace x)
        if w.isEmpty then none else some w
      else none
  else none

/-- Match of `(^Hostname:\s+)(?P<hostname>\S+)` (re.M) at one line
start. -/
def matchJunosAt (l : List Char) : Option (List Char) :=
  if hostnameLit.isPrefixOf l then
    let r := l.drop hostnameLit.length
    let s := r.takeWhile isSpace
    let r2 := r.dropWhile isSpace
    if s.isEmpty then none
    else
      let w := r2.takeWhile (fun x => !isSpace x)
      if w.isEmpty then none else some w
  else none

/-- Match of `(?P<hostname>^\S+)\s+uptime` (re.M) at one line start: the
captured maximal nonempty run of non-whitespace characters, then one or
more whitespace characters, then the literal `uptime`. -/
def matchDefaultAt (l : List Char) : Option (List Char) :=
  let w := l.takeWhile (fun x => !isSpace x)
  let r := l.dropWhile (fun x => !isSpace x)
  let s := r.takeWhile isSpace
  let r2 := r.dropWhile isSpace
  if w.isEmpty then none
  else if s.isEmpty then none
  else if uptimeLit.isPrefixOf r2 then some w else none

/-- `regexp.search(sh_ver)` for each of the three patterns: leftmost
line start at which the pattern matches, returning the `hostname`
capture. -/
def regexSearch : HPattern → List Char → Option (List Char)
  | HPattern.nxos, sv => List.findSome? matchNxosAt (lineStarts sv)
  | HPattern.junos, sv => List.findSome? matchJunosAt (lineStarts sv)
  | HPattern.ciscoDefault, sv => List.findSome? matchDefaultAt (lineStarts sv)

/-- Python `dict` as an insertion-ordered association list. -/
abbrev Dict := List (String × List Char)

instance {ε α : Type} [DecidableEq ε] [DecidableEq α] : DecidableEq (Except ε α) :=
  fun x y =>
    match x, y with
    | .ok a, .ok b =>
      if h : a = b then isTrue (by rw [h])
      else isFalse (by intro hc; cases hc; exact h rfl)
    | .error a, .error b =>
      if h : a = b then isTrue (by rw [h])
      else isFalse (by intro hc; cases hc; exact h rfl)
    | .ok _, .error _ => isFalse (by intro hc; cases hc)
    | .error _, .ok _ => isFalse (by intro hc; cases hc)

/-- One key of a Python `dict.update`: overwrite in place if the key is
present, otherwise append. -/
def dInsert (d : Dict) (k : String) (v : List Char) : Dict :=
  if d.any (fun kv => kv.1 == k) then
    d.map (fun kv => if kv.1 == k then (k, v) else kv)
  else d ++ [(k, v)]

/-- `dict.update` with the pairs of another dict. -/
def dUpdate (d : Dict) (kvs : Dict) : Dict :=
  kvs.foldl (fun acc kv => dInsert acc kv.1 kv.2) d

/-- The `for regexp in ...: device_hostname.update(...)` loop of
`extract_hostname` (lines 50-51): each pattern's
`regexp.search(sh_ver).groupdict()` is merged into the dict; a failed
search makes `.groupdict()` raise `AttributeError` (`None` has no such
attribute), which aborts the loop. -/
def extractLoop (sv : List Char) : List HPattern → Dict → Except (List Char) Dict
  | [], d => .ok d
  | p :: rest, d =>
    match regexSearch p sv with
    | none => .error (lc "AttributeError")
    | some w => extractLoop sv rest (dUpdate d [("hostname", w)])

/-- `extract_hostname` (lines 48-52). -/
def extract_hostname (sv : List Char) : Except (List Char) Dict :=
  extractLoop sv (software_ver_check sv) []

/-- The uniform per-device result shape (the dict built at lines 153-156
and 163-166): `device_hostname` is the extracted hostname on success and
the raw address on failure; `commands_output` is the transcript. -/
structure TaskResult where
  device_hostname : List Char
  commands_output : List Char
deriving DecidableEq

/-- The opaque remote-session collaborator (`netdev`), one environment per
device task: outcome of `netdev.create`, of `send_command`, and of
`send_config_from_file`, each either output text or an exception
message. -/
structure SessionEnv where
  connect : Except (List Char) Unit
  sendCommand : List Char → Except (List Char) (List Char)
  sendConfigFromFile : List Char → Except (List Char) (List Char)

/-- Observable side effects of one device task: session acquisition and
release (the `async with` enter/exit) and console prints. -/
inductive Event where
  | opened
  | closed
  | printed (msg : List Char)
deriving DecidableEq

/-- The 80-character separator `"=" * 80` (lines 150 and 162). -/
def sep80 : List Char := List.replicate 80 '='

/-- The failure transcript built at lines 161-162:
`"Unable to login to device " + ip + "\n"` then `"\n" + "="*80 + "\n"`. -/
def failTranscript (ip : List Char) : List Char :=
  lc "Unable to login to device " ++ ip ++ lc "\n" ++ lc "\n" ++ sep80 ++ lc "\n"

/-- The body of the `async with` block (lines 133-157), given an open
session: identify, extract the hostname, print the deploy line, push the
lowercased `./<hostname>.conf`, and assemble the transcript
`"\n".join(["Configs deployed to <hostname>", push output, "\n"+"="*80+"\n"])`.
An error carries the exception message and the console messages printed
before the failure. -/
def runBody (env : SessionEnv) :
    Except (List Char × List (List Char)) (TaskResult × List (List Char)) :=
  match env.sendCommand (lc "show version") with
  | .error e => .error (e, [])
  | .ok sv =>
    match extract_hostname sv with
    | .error e => .error (e, [])
    | .ok parsed =>
      match parsed.lookup "hostname" with
      | none => .error (lc "KeyError", [])
      | some hn =>
        match env.sendConfigFromFile ((lc "./" ++ hn ++ lc ".conf").map Char.toLower) with
        | .error e => .error (e, [lc "Deploying configs on " ++ hn])
        | .ok out =>
          .ok ({ device_hostname := hn,
                 commands_output :=
                   lc "Configs deployed to " ++ hn ++ lc "\n" ++ out ++ lc "\n"
                     ++ (lc "\n" ++ sep80 ++ lc "\n") },
               [lc "Deploying configs on " ++ hn])

/-- `configure_device` (lines 110-169).  `async with` opens the session
only if `netdev.create` succeeds and closes it on both normal and
exceptional exit of the body; any exception anywhere is caught by the
broad `except` (lines 160-169), which builds the uniform failure result
and prints the notice and the exception.  Returns the result together
with the ordered event trace. -/
def configure_device (env : SessionEnv) (ip : List Char) : TaskResult × List Event :=
  match env.connect with
  | .error e =>
    ({ device_hostname := ip, commands_output := failTranscript ip },
     [Event.printed (lc "Unable to login to device " ++ ip), Event.printed e])
  | .ok _ =>
    match runBody env with
    | .ok (r, msgs) =>
      (r, Event.opened :: msgs.map Event.printed ++ [Event.closed])
    | .error (e, msgs) =>
      ({ device_hostname := ip, commands_output := failTranscript ip },
       Event.opened :: msgs.map Event.printed
         ++ [Event.closed, Event.printed (lc "Unable to login to device " ++ ip),
             Event.printed e])

/-- True iff some step of the device task fails: session acquisition, the
identify command, hostname extraction, or the config push. -/
def stepFailed (env : SessionEnv) : Bool :=
  match env.connect with
  | .error _ => true
  | .ok _ =>
    match runBody env with
    | .error _ => true
    | .ok _ => false

/-- The fan-out/join of `main` (lines 180-182): one task per inventory
address, every task awaited; results in task order. -/
def runAll (envOf : List Char → SessionEnv) (ips : List (List Char)) : List TaskResult :=
  ips.map (fun ip => (configure_device (envOf ip) ip).1)

/-- Decimal digits of a natural number (what `%i` renders for the
nonnegative ints coming out of `datetime`). -/
def natStr (n : Nat) : List Char := Nat.toDigits 10 n

/-- Python `"%.\{w}i" % n` for nonnegative `n`: zero-pad the decimal
digits to at least `w` characters. -/
def pad (w : Nat) (n : Nat) : List Char :=
  List.replicate (w - (natStr n).length) '0' ++ natStr n

/-- One append-mode file write performed by `save_output`. -/
structure FileWrite where
  filename : List Char
  content : List Char
deriving DecidableEq

/-- `save_output` (lines 82-108) with the wall-clock fields passed in:
filename `"%s_%.2i%.2i%i_%.2i%.2i%.2i.log" % (hostname, year, month, day,
hour, minute, second)`, content appended as given. -/
def save_output (device_hostname : List Char) (commands_output : List Char)
    (y mo d hh mi s : Nat) : FileWrite :=
  { filename :=
      device_hostname ++ lc "_" ++ pad 2 y ++ pad 2 mo ++ natStr d
        ++ lc "_" ++ pad 2 hh ++ pad 2 mi ++ pad 2 s ++ lc ".log",
    content := commands_output }

/-- Claim-side filename `<label>_<YYYYMMDD>_<HHMMSS>.log`: four-digit
zero-padded year, two-digit zero-padded month, day, hour, minute and
second. -/
def claimFilename (label : List Char) (y mo d hh mi s : Nat) : List Char :=
  label ++ lc "_" ++ pad 4 y ++ pad 2 mo ++ pad 2 d
    ++ lc "_" ++ pad 2 hh ++ pad 2 mi ++ pad 2 s ++ lc ".log"

/-- The persistence loop of `main` (lines 184-187): one `save_output`
call per task, in task order. -/
def mainWrites (envOf : List Char → SessionEnv) (ips : List (List Char))
    (y mo d hh mi s : Nat) : List FileWrite :=
  (runAll envOf ips).map
    (fun r => save_output r.device_hostname r.commands_output y mo d hh mi s)

/-- Demo version text for the success scenario: classified `IOS XE`, so
the default Cisco pattern applies and extracts `R1`. -/
def svDemo : List Char := lc "x IOS XE Software\nR1 uptime is 2 weeks\n"

/-- Demo session for the end-to-end success scenario: connection
succeeds, `show version` returns `svDemo`, pushing `./r1.conf` returns
`OK`. -/
def envSucc : SessionEnv :=
  { connect := .ok ()
  , sendCommand := fun c =>
      if c = lc "show version" then .ok svDemo else .error (lc "bad command")
  , sendConfigFromFile := fun f =>
      if f = lc "./r1.conf" then .ok (lc "OK") else .error (lc "No such file") }

/-- Session whose version text has an `R1 ... uptime` line but no family
marker at a positive position. -/
def envNoMarker : SessionEnv :=
  { connect := .ok ()
  , sendCommand := fun c =>
      if c = lc "show version" then .ok (lc "R1 uptime is 2 weeks\n")
      else .error (lc "bad command")
  , sendConfigFromFile := fun f =>
      if f = lc "./r1.conf" then .ok (lc "OK") else .error (lc "No such file") }

/-- Session whose acquisition fails with a distinctive exception
message. -/
def envConnFail : SessionEnv :=
  { connect := .error (lc "ECONNRESET by peer")
  , sendCommand := fun _ => .error (lc "no session")
  , sendConfigFromFile := fun _ => .error (lc "no session") }

/-! ## Helper lemmas -/

theorem isPrefixOf_append_self (l r : List Char) : l.isPrefixOf (l ++ r) = true := by
  induction l with
  | nil => simp [List.isPrefixOf]
  | cons c t ih => simp [List.isPrefixOf, ih]

theorem containsSub_of_isPrefixOf {l h : List Char} (hp : l.isPrefixOf h = true) :
    containsSub l h = true := by
  cases h with
  | nil => simpa [containsSub] using hp
  | cons c t => simp [containsSub, hp]

theorem containsSub_append_self (l r : List Char) : containsSub l (l ++ r) = true :=
  containsSub_of_isPrefixOf (isPrefixOf_append_self l r)

theorem containsSub_append_left (pre : List Char) {l h : List Char}
    (hc : containsSub l h = true) : containsSub l (pre ++ h) = true := by
  induction pre with
  | nil => simpa
  | cons c t ih => simp [containsSub, ih]

theorem takeWhile_append_all {p : Char → Bool} {l1 : List Char} (l2 : List Char)
    (hall : l1.all p = true) : (l1 ++ l2).takeWhile p = l1 ++ l2.takeWhile p := by
  induction l1 with
  | nil => rfl
  | cons c t ih =>
    simp only [List.all_cons, Bool.and_eq_true] at hall
    simp [List.takeWhile_cons, hall.1, ih hall.2]

theorem dropWhile_append_all {p : Char → Bool} {l1 : List Char} (l2 : List Char)
    (hall : l1.all p = true) : (l1 ++ l2).dropWhile p = l2.dropWhile p := by
  induction l1 with
  | nil => rfl
  | cons c t ih =>
    simp only [List.all_cons, Bool.and_eq_true] at hall
    simp [List.dropWhile_cons, hall.1, ih hall.2]

theorem takeWhile_cons_neg {p : Char → Bool} {c : Char} (t : List Char)
    (hc : p c = false) : (c :: t).takeWhile p = [] := by
  simp [List.takeWhile_cons, hc]

theorem dropWhile_cons_neg {p : Char → Bool} {c : Char} (t : List Char)
    (hc : p c = false) : (c :: t).dropWhile p = c :: t := by
  simp [List.dropWhile_cons, hc]

theorem findSome?_isSome_of_mem {α β : Type} (f : α → Option β) {a : α} {xs : List α}
    (hm : a ∈ xs) (hs : (f a).isSome = true) :
    (List.findSome? f xs).isSome = true := by
  induction xs with
  | nil => cases hm
  | cons x t ih =>
    rcases List.mem_cons.mp hm with h | h
    · subst h
      cases hfa : f a with
      | none => rw [hfa] at hs; cases hs
      | some b => simp [List.findSome?_cons, hfa]
    · cases hfx : f x with
      | some b => simp [List.findSome?_cons, hfx]
      | none => simpa [List.findSome?_cons, hfx] using ih h

/-- A successful `findSome?` splits the list into a prefix on which the
function returns `none`, the first element on which it returns the found
value, and a remainder: the found value comes from the leftmost hit. -/
theorem findSome?_eq_some_split {α β : Type} {f : α → Option β} {xs : List α} {b : β}
    (h : List.findSome? f xs = some b) :
    ∃ pre a post, xs = pre ++ a :: post ∧ (∀ x ∈ pre, f x = none) ∧ f a = some b := by
  induction xs with
  | nil => simp at h
  | cons x t ih =>
    cases hfx : f x with
    | some b' =>
      have hb : b' = b := by simpa [List.findSome?_cons, hfx] using h
      refine ⟨[], x, t, rfl, ?_, ?_⟩
      · intro y hy
        cases hy
      · rw [hfx, hb]
    | none =>
      have h' : List.findSome? f t = some b := by
        simpa [List.findSome?_cons, hfx] using h
      obtain ⟨pre, a, post, hxs, hpre, hfa⟩ := ih h'
      refine ⟨x :: pre, a, post, by simp [hxs], ?_, hfa⟩
      intro y hy
      rcases List.mem_cons.mp hy with h1 | h1
      · rw [h1]; exact hfx
      · exact hpre y h1

/-- The value the loop variable retains when the loop falls through:
the last element of the list, or `cur` for the empty list. -/
def lastD : List (List Char) → List Char → List Char
  | [], c => c
  | [v], _ => v
  | _ :: v :: t, c => lastD (v :: t) c

theorem lastD_cons_const (v : List Char) (t : List (List Char)) (a b : List Char) :
    lastD (v :: t) a = lastD (v :: t) b := by
  induction t generalizing v with
  | nil => rfl
  | cons w t ih => simp only [lastD]; exact ih w

/-- The break-on-first-match loop is the declarative first match, with
the last element as fallthrough. -/
theorem loopPick_eq_find? (sv : List Char) (vs : List (List Char)) (cur : List Char) :
    loopPick sv vs cur
      = (vs.find? (fun v => foundPos v sv)).getD (lastD vs cur) := by
  induction vs generalizing cur with
  | nil => rfl
  | cons v rest ih =>
    cases hp : foundPos v sv with
    | true => simp [loopPick, List.find?_cons, hp]
    | false =>
      cases rest with
      | nil => simp [loopPick, List.find?_cons, hp, lastD]
      | cons w t =>
        have h1 : loopPick sv (v :: w :: t) cur = loopPick sv (w :: t) v := by
          show (if foundPos v sv = true then v else loopPick sv (w :: t) v) = _
          rw [hp]
          simp
        rw [h1, ih v, lastD_cons_const w t v cur]
        simp only [List.find?_cons, hp, lastD]

theorem pad_eq_natStr {w n : Nat} (h : w ≤ (natStr n).length) : pad w n = natStr n := by
  unfold pad
  rw [Nat.sub_eq_zero_of_le h]
  rfl

theorem isEmpty_false_of_ne_nil {l : List Char} (h : l ≠ []) : l.isEmpty = false := by
  cases l with
  | nil => exact absurd rfl h
  | cons c t => rfl

/-- The NX-OS regex matches at a line start consisting of nonempty
whitespace, `Device name:`, one space and a token. -/
theorem matchNxosAt_shaped (ind tok rest : List Char)
    (hind1 : ind ≠ []) (hind2 : ind.all isSpace = true)
    (htok1 : tok ≠ []) (htok2 : tok.all (fun c => !isSpace c) = true)
    (hrest : rest.takeWhile (fun c => !isSpace c) = []) :
    matchNxosAt (ind ++ (deviceNameLit ++ (' ' :: (tok ++ rest)))) = some tok := by
  have hD : deviceNameLit ++ (' ' :: (tok ++ rest))
      = 'D' :: (lc "evice name:" ++ (' ' :: (tok ++ rest))) := rfl
  simp only [matchNxosAt]
  rw [takeWhile_append_all _ hind2, dropWhile_append_all _ hind2, hD,
    takeWhile_cons_neg _ (by decide), dropWhile_cons_neg _ (by decide), ← hD]
  rw [List.append_nil, isEmpty_false_of_ne_nil hind1]
  simp only [Bool.false_eq_true, if_false, isPrefixOf_append_self, if_true]
  rw [List.drop_left]
  simp only [show isSpace ' ' = true from rfl, if_true]
  rw [takeWhile_append_all _ htok2, hrest, List.append_nil,
    isEmpty_false_of_ne_nil htok1]
  simp

/-- The Junos regex matches at a line start `Hostname: <token>`. -/
theorem matchJunosAt_shaped (tok rest : List Char)
    (htok1 : tok ≠ []) (htok2 : tok.all (fun c => !isSpace c) = true)
    (hrest : rest.takeWhile (fun c => !isSpace c) = []) :
    matchJunosAt (hostnameLit ++ (' ' :: (tok ++ rest))) = some tok := by
  simp only [matchJunosAt, isPrefixOf_append_self, if_true]
  rw [List.drop_left]
  rw [List.takeWhile_cons, List.dropWhile_cons]
  simp only [show isSpace ' ' = true from rfl, if_true, List.isEmpty_cons,
    Bool.false_eq_true, if_false]
  cases tok with
  | nil => exact absurd rfl htok1
  | cons c t =>
    simp only [List.all_cons, Bool.and_eq_true] at htok2
    have hc : isSpace c = false := by
      cases hcs : isSpace c with
      | false => rfl
      | true => rw [hcs] at htok2; cases htok2.1
    rw [List.cons_append, dropWhile_cons_neg _ hc, ← List.cons_append,
      takeWhile_append_all _ (by simp [List.all_cons, htok2.1, htok2.2]), hrest,
      List.append_nil, isEmpty_false_of_ne_nil (by simp)]
    simp

/-- Running the singleton pattern list when the search succeeds. -/
theorem extract_ok_of_search {sv : List Char} {p : HPattern} {w : List Char}
    (hsvc : software_ver_check sv = [p]) (hs : regexSearch p sv = some w) :
    extract_hostname sv = Except.ok [("hostname", w)] := by
  simp only [extract_hostname, hsvc, extractLoop, hs]
  simp [dUpdate, dInsert]

/-- Running the singleton pattern list when the search fails:
`None.groupdict()` raises `AttributeError`. -/
theorem extract_err_of_search {sv : List Char} {p : HPattern}
    (hsvc : software_ver_check sv = [p]) (hs : regexSearch p sv = none) :
    extract_hostname sv = Except.error (lc "AttributeError") := by
  simp only [extract_hostname, hsvc, extractLoop, hs]

/-- The success value of the `async with` body always has the
header/output/separator transcript shape. -/
theorem runBody_ok_shape {env : SessionEnv} {r : TaskResult} {msgs : List (List Char)}
    (h : runBody env = Except.ok (r, msgs)) :
    ∃ hn out,
      r = { device_hostname := hn,
            commands_output :=
              lc "Configs deployed to " ++ hn ++ lc "\n" ++ out ++ lc "\n"
                ++ (lc "\n" ++ sep80 ++ lc "\n") } := by
  unfold runBody at h
  cases h1 : env.sendCommand (lc "show version") with
  | error e => simp only [h1] at h; cases h
  | ok sv =>
    simp only [h1] at h
    cases h2 : extract_hostname sv with
    | error e => simp only [h2] at h; cases h
    | ok parsed =>
      simp only [h2] at h
      cases h3 : parsed.lookup "hostname" with
      | none => simp only [h3] at h; cases h
      | some hn =>
        simp only [h3] at h
        cases h4 : env.sendConfigFromFile ((lc "./" ++ hn ++ lc ".conf").map Char.toLower) with
        | error e => simp only [h4] at h; cases h
        | ok out =>
          simp only [h4] at h
          have hp2 := Except.ok.inj h
          exact ⟨hn, out, (congrArg Prod.fst hp2).symm⟩

theorem containsSub_failTranscript (ip : List Char) :
    containsSub (lc "Unable to login to device " ++ ip) (failTranscript ip) = true := by
  unfold failTranscript
  have he : lc "Unable to login to device " ++ ip ++ lc "\n" ++ lc "\n" ++ sep80 ++ lc "\n"
      = (lc "Unable to login to device " ++ ip)
          ++ (lc "\n" ++ lc "\n" ++ sep80 ++ lc "\n") := by
    simp [List.append_assoc]
  rw [he]
  exact containsSub_append_self _ _

theorem containsSub_sep80_failTranscript (ip : List Char) :
    containsSub sep80 (failTranscript ip) = true := by
  unfold failTranscript
  have he : lc "Unable to login to device " ++ ip ++ lc "\n" ++ lc "\n" ++ sep80 ++ lc "\n"
      = (lc "Unable to login to device " ++ ip ++ lc "\n" ++ lc "\n")
          ++ (sep80 ++ lc "\n") := by
    simp [List.append_assoc]
  rw [he]
  exact containsSub_append_left _ (containsSub_append_self _ _)

theorem containsSub_sep80_succ (hn out : List Char) :
    containsSub sep80
      (lc "Configs deployed to " ++ hn ++ lc "\n" ++ out ++ lc "\n"
        ++ (lc "\n" ++ sep80 ++ lc "\n")) = true := by
  have he : lc "Configs deployed to " ++ hn ++ lc "\n" ++ out ++ lc "\n"
        ++ (lc "\n" ++ sep80 ++ lc "\n")
      = (lc "Configs deployed to " ++ hn ++ lc "\n" ++ out ++ lc "\n" ++ lc "\n")
          ++ (sep80 ++ lc "\n") := by
    simp [List.append_assoc]
  rw [he]
  exact containsSub_append_left _ (containsSub_append_self _ _)

/-! ## Claim theorems -/

/-- C1: whenever any step of the device task fails (session acquisition,
identify command, hostname extraction, or config push), `configure_device`
returns a `TaskResult` whose label is the raw input address and whose
transcript contains `Unable to login to device <address>`; no exception
escapes the task. -/
theorem claim1_uniform_failure (env : SessionEnv) (ip : List Char)
    (h : stepFailed env = true) :
    (configure_device env ip).1.device_hostname = ip
      ∧ containsSub (lc "Unable to login to device " ++ ip)
          (configure_device env ip).1.commands_output = true := by
  cases hc : env.connect with
  | error e =>
    refine ⟨by simp [configure_device, hc], ?_⟩
    simp only [configure_device, hc]
    exact containsSub_failTranscript ip
  | ok u =>
    cases hb : runBody env with
    | ok rm =>
      exfalso
      have hsf : stepFailed env = false := by simp [stepFailed, hc, hb]
      rw [hsf] at h
      cases h
    | error em =>
      obtain ⟨e, msgs⟩ := em
      refine ⟨by simp [configure_device, hc, hb], ?_⟩
      simp only [configure_device, hc, hb]
      exact containsSub_failTranscript ip

/-- Witness for C1: a device whose session acquisition throws yields the
address-labelled failure result. -/
theorem claim1_witness :
    stepFailed envConnFail = true
      ∧ ((configure_device envConnFail (lc "10.0.0.1")).1.device_hostname = lc "10.0.0.1"
          ∧ containsSub (lc "Unable to login to device " ++ lc "10.0.0.1")
              (configure_device envConnFail (lc "10.0.0.1")).1.commands_output = true) :=
  ⟨by decide, claim1_uniform_failure envConnFail (lc "10.0.0.1") (by decide)⟩

/-- C2: for every inventory of N addresses (including N = 0) and every
behaviour of the remote sessions, the batch produces exactly N
`TaskResult`s and performs exactly N `save_output` writes, however many
tasks fail. -/
theorem claim2_one_result_per_address (envOf : List Char → SessionEnv)
    (ips : List (List Char)) (y mo d hh mi s : Nat) :
    (runAll envOf ips).length = ips.length
      ∧ (mainWrites envOf ips y mo d hh mi s).length = ips.length := by
  constructor
  · simp [runAll]
  · simp [mainWrites, runAll]

/-- C3 (code bug): version text containing no known family marker is not
rejected with an `UnrecognizedDeviceFamily` error.  The loop variable
keeps the last marker tried (`Junos`), so `software_ver_check` silently
selects the Junos pattern, and `extract_hostname` then fails only with
the generic `AttributeError` of the failed regex search. -/
theorem claim3_silent_junos_default :
    software_ver_check (lc "garbage version output") = [HPattern.junos]
      ∧ extract_hostname (lc "garbage version output")
          = Except.error (lc "AttributeError") :=
  ⟨by decide, by decide⟩

/-- C4 counterexample: in `NX-OS foo NX-OS` the marker `NX-OS` occurs as
a substring at position 10 > 0, so the claim selects the NX-OS family;
the code skips the marker because `str.find` returns its first
occurrence, which is 0, and falls through to the Junos pattern. -/
theorem claim4_counterexample :
    version_list.find? (fun m => occursPos m (lc "NX-OS foo NX-OS"))
        = some (lc "NX-OS")
      ∧ software_ver_check (lc "NX-OS foo NX-OS") ≠ patternFor (lc "NX-OS")
      ∧ software_ver_check (lc "NX-OS foo NX-OS") = [HPattern.junos] :=
  ⟨by decide, by decide, by decide⟩

/-- C4 amended: classification is first-match-wins over the ordered
marker list, selecting the first marker whose FIRST (lowest-index)
occurrence in the text is at a position strictly greater than 0; a marker
whose first occurrence is at position 0 never selects its family, even if
it also occurs later; when no marker qualifies the Junos mapping applies. -/
theorem claim4_first_occurrence_selection (t : List Char) :
    software_ver_check t = patternFor (firstMatchMarker t) := by
  show patternFor (loopPick t version_list []) = patternFor (firstMatchMarker t)
  rw [loopPick_eq_find? t version_list []]
  rfl

/-- C5 counterexample: on 2026-01-05 12:03:04 the code writes
`R1_2026015_120304.log` (day rendered by `%i`, unpadded), not the claimed
`R1_20260105_120304.log`. -/
theorem claim5_counterexample :
    (save_output (lc "R1") (lc "log") 2026 1 5 12 3 4).filename
        = lc "R1_2026015_120304.log"
      ∧ claimFilename (lc "R1") 2026 1 5 12 3 4 = lc "R1_20260105_120304.log"
      ∧ (save_output (lc "R1") (lc "log") 2026 1 5 12 3 4).filename
          ≠ claimFilename (lc "R1") 2026 1 5 12 3 4 :=
  ⟨by decide, by decide, by decide⟩

/-- C5 amended: the filename is
`<label>_<year %.2i><month %.2i><day %i>_<hour %.2i><minute %.2i><second %.2i>.log`
and the transcript is appended verbatim; this agrees with the claimed
`<label>_<YYYYMMDD>_<HHMMSS>.log` exactly when the year has four digits
and the day has two digits (days 1-9 are written unpadded). -/
theorem claim5_filename_day_unpadded (label out : List Char) (y mo d hh mi s : Nat)
    (hy : 4 ≤ (natStr y).length) (hd : 2 ≤ (natStr d).length) :
    save_output label out y mo d hh mi s
      = { filename := claimFilename label y mo d hh mi s, content := out } := by
  unfold save_output claimFilename
  rw [pad_eq_natStr (le_trans (by norm_num) hy), pad_eq_natStr hy, pad_eq_natStr hd]

/-- Witness for C5: a two-digit day, where code and claim agree. -/
theorem claim5_witness :
    4 ≤ (natStr 2026).length ∧ 2 ≤ (natStr 15).length
      ∧ save_output (lc "R1") (lc "transcript") 2026 12 15 1 2 3
          = { filename := claimFilename (lc "R1") 2026 12 15 1 2 3,
              content := lc "transcript" } :=
  ⟨by decide, by decide,
    claim5_filename_day_unpadded (lc "R1") (lc "transcript") 2026 12 15 1 2 3
      (by decide) (by decide)⟩

/-- C6 counterexample: the session opens, the version text
`R1 uptime is 2 weeks` has token `R1` before `uptime` on a line, and
pushing `./r1.conf` would return `OK`, yet the task fails: the text
contains no family marker, so the Junos pattern is selected, the search
fails, and the result is labelled with the raw address, not `R1`. -/
theorem claim6_counterexample :
    envNoMarker.connect = Except.ok ()
      ∧ envNoMarker.sendCommand (lc "show version")
          = Except.ok (lc "R1 uptime is 2 weeks\n")
      ∧ containsSub (lc "R1 uptime") (lc "R1 uptime is 2 weeks\n") = true
      ∧ envNoMarker.sendConfigFromFile (lc "./r1.conf") = Except.ok (lc "OK")
      ∧ (configure_device envNoMarker (lc "10.0.0.1")).1.device_hostname
          = lc "10.0.0.1"
      ∧ (configure_device envNoMarker (lc "10.0.0.1")).1.device_hostname
          ≠ lc "R1" :=
  ⟨by decide, by decide, by decide, by decide, by decide, by decide⟩

/-- C6 amended: if the session opens, the version text is classified into
the default Cisco branch, the leftmost `<token> uptime` line-start match
yields `R1`, and pushing `./r1.conf` (the lowercased hostname plus
`.conf`) returns `OK`, then the task returns label `R1` and a transcript
containing the `Configs deployed to R1` header, the raw push output `OK`,
and the 80-character `=` separator. -/
theorem claim6_success_path (env : SessionEnv) (ip sv : List Char)
    (hconn : env.connect = Except.ok ())
    (hsv : env.sendCommand (lc "show version") = Except.ok sv)
    (hclass : software_ver_check sv = [HPattern.ciscoDefault])
    (hfind : regexSearch HPattern.ciscoDefault sv = some (lc "R1"))
    (hpush : env.sendConfigFromFile (lc "./r1.conf") = Except.ok (lc "OK")) :
    (configure_device env ip).1.device_hostname = lc "R1"
      ∧ containsSub (lc "Configs deployed to R1")
          (configure_device env ip).1.commands_output = true
      ∧ containsSub (lc "OK") (configure_device env ip).1.commands_output = true
      ∧ containsSub sep80 (configure_device env ip).1.commands_output = true := by
  have hex : extract_hostname sv = Except.ok [("hostname", lc "R1")] :=
    extract_ok_of_search hclass hfind
  have hlk : List.lookup "hostname" ([("hostname", lc "R1")] : Dict)
      = some (lc "R1") := by decide
  have hcf : (lc "./" ++ lc "R1" ++ lc ".conf").map Char.toLower = lc "./r1.conf" := by
    decide
  have hbody : runBody env = Except.ok
      ({ device_hostname := lc "R1",
         commands_output :=
           lc "Configs deployed to " ++ lc "R1" ++ lc "\n" ++ lc "OK" ++ lc "\n"
             ++ (lc "\n" ++ sep80 ++ lc "\n") },
       [lc "Deploying configs on " ++ lc "R1"]) := by
    simp only [runBody, hsv, hex, hlk, hcf, hpush]
  simp only [configure_device, hconn, hbody]
  decide

/-- Witness for C6: the demo IOS XE session yields the success result. -/
theorem claim6_witness :
    (configure_device envSucc (lc "10.0.0.1")).1.device_hostname = lc "R1"
      ∧ containsSub (lc "Configs deployed to R1")
          (configure_device envSucc (lc "10.0.0.1")).1.commands_output = true
      ∧ containsSub (lc "OK")
          (configure_device envSucc (lc "10.0.0.1")).1.commands_output = true
      ∧ containsSub sep80
          (configure_device envSucc (lc "10.0.0.1")).1.commands_output = true :=
  claim6_success_path envSucc (lc "10.0.0.1") svDemo (by decide) (by decide)
    (by decide) (by decide) (by decide)

/-- C7 counterexample: the failure transcript does not contain the
exception description (`ECONNRESET by peer` is only printed to the
console), and the success transcript contains neither
`Deploying configs on R1` nor `Running configs on R1` (its header reads
`Configs deployed to R1`). -/
theorem claim7_counterexample :
    containsSub (lc "ECONNRESET")
        (configure_device envConnFail (lc "10.0.0.1")).1.commands_output = false
      ∧ containsSub (lc "Deploying configs on R1")
          (configure_device envSucc (lc "10.0.0.1")).1.commands_output = false
      ∧ containsSub (lc "Running configs on R1")
          (configure_device envSucc (lc "10.0.0.1")).1.commands_output = false :=
  ⟨by decide, by decide, by decide⟩

/-- C7 amended: every transcript handed to `save_output` contains the
80-character `=` separator, and is either the success shape — a
`Configs deployed to <hostname>` header, the raw config-push response,
and the separator — or the failure shape
`Unable to login to device <address>` plus the separator (the exception
description is printed to the console, not included). -/
theorem claim7_transcript_shapes (env : SessionEnv) (ip : List Char) :
    containsSub sep80 (configure_device env ip).1.commands_output = true
      ∧ ((∃ hn out,
            (configure_device env ip).1
              = { device_hostname := hn,
                  commands_output :=
                    lc "Configs deployed to " ++ hn ++ lc "\n" ++ out ++ lc "\n"
                      ++ (lc "\n" ++ sep80 ++ lc "\n") })
          ∨ (configure_device env ip).1
              = { device_hostname := ip, commands_output := failTranscript ip }) := by
  cases hc : env.connect with
  | error e =>
    constructor
    · simp only [configure_device, hc]
      exact containsSub_sep80_failTranscript ip
    · right
      simp [configure_device, hc]
  | ok u =>
    cases hb : runBody env with
    | error em =>
      obtain ⟨e, msgs⟩ := em
      constructor
      · simp only [configure_device, hc, hb]
        exact containsSub_sep80_failTranscript ip
      · right
        simp [configure_device, hc, hb]
    | ok rm =>
      obtain ⟨r, msgs⟩ := rm
      obtain ⟨hn, out, hr⟩ := runBody_ok_shape hb
      constructor
      · simp only [configure_device, hc, hb]
        rw [hr]
        exact containsSub_sep80_succ hn out
      · left
        exact ⟨hn, out, by simp only [configure_device, hc, hb]; exact hr⟩

/-- C8 counterexample: `x NX-OS\nDevice name: SW1\n` is classified NX-OS
and contains the line `Device name: SW1`, yet extraction fails with
`AttributeError`: the NX-OS regex `(^\s+)+(Device name:)...` requires at
least one leading whitespace character before `Device name:`. -/
theorem claim8_counterexample :
    software_ver_check (lc "x NX-OS\nDevice name: SW1\n") = [HPattern.nxos]
      ∧ (lc "Device name: SW1\n") ∈ lineStarts (lc "x NX-OS\nDevice name: SW1\n")
      ∧ extract_hostname (lc "x NX-OS\nDevice name: SW1\n")
          = Except.error (lc "AttributeError") :=
  ⟨by decide, by decide, by decide⟩

/-- C8 amended: for every NX-OS-classified text containing a line of
nonempty whitespace indentation followed by `Device name: <token>`
(token nonempty, non-whitespace, ending at whitespace or end of text),
the extractor succeeds and returns the singleton mapping
`{"hostname": w}` where `w` is the token captured at the leftmost
line start matching the NX-OS pattern: the line starts split into a
prefix on which the pattern fails, then the matching line that
captures `w`. -/
theorem claim8_indented_device_name (t ind tok rest : List Char)
    (hclass : software_ver_check t = [HPattern.nxos])
    (hline : (ind ++ (deviceNameLit ++ (' ' :: (tok ++ rest)))) ∈ lineStarts t)
    (hind1 : ind ≠ []) (hind2 : ind.all isSpace = true)
    (htok1 : tok ≠ []) (htok2 : tok.all (fun c => !isSpace c) = true)
    (hrest : rest.takeWhile (fun c => !isSpace c) = []) :
    ∃ w pre line post,
      extract_hostname t = Except.ok [("hostname", w)]
        ∧ lineStarts t = pre ++ line :: post
        ∧ (∀ l ∈ pre, matchNxosAt l = none)
        ∧ matchNxosAt line = some w := by
  have hm : (matchNxosAt (ind ++ (deviceNameLit ++ (' ' :: (tok ++ rest))))).isSome
      = true := by
    rw [matchNxosAt_shaped ind tok rest hind1 hind2 htok1 htok2 hrest]
    rfl
  have hsome := findSome?_isSome_of_mem matchNxosAt hline hm
  obtain ⟨w, hw⟩ := Option.isSome_iff_exists.mp hsome
  obtain ⟨pre, line, post, hsplit, hpre, hmatch⟩ := findSome?_eq_some_split hw
  exact ⟨w, pre, line, post,
    extract_ok_of_search hclass (by simpa [regexSearch] using hw),
    hsplit, hpre, hmatch⟩

/-- Witness for C8: an indented `Device name:` line extracts, and the
leftmost (here: only) matching line's token `SW1` is what is returned. -/
theorem claim8_witness :
    (∃ w pre line post,
        extract_hostname (lc "x NX-OS\n  Device name: SW1\nmore\n")
            = Except.ok [("hostname", w)]
          ∧ lineStarts (lc "x NX-OS\n  Device name: SW1\nmore\n")
              = pre ++ line :: post
          ∧ (∀ l ∈ pre, matchNxosAt l = none)
          ∧ matchNxosAt line = some w)
      ∧ extract_hostname (lc "x NX-OS\n  Device name: SW1\nmore\n")
          = Except.ok [("hostname", lc "SW1")] :=
  ⟨claim8_indented_device_name (lc "x NX-OS\n  Device name: SW1\nmore\n")
      (lc "  ") (lc "SW1") (lc "\nmore\n")
      (by decide) (by decide) (by decide) (by decide) (by decide) (by decide)
      (by decide),
   by decide⟩

/-- C9: on every exit path of the device task, if the session was
acquired it is released before the task returns its result. -/
theorem claim9_session_released (env : SessionEnv) (ip : List Char) :
    Event.opened ∈ (configure_device env ip).2
      → Event.closed ∈ (configure_device env ip).2 := by
  cases hc : env.connect with
  | error e =>
    intro hmem
    exfalso
    revert hmem
    simp [configure_device, hc]
  | ok u =>
    cases hb : runBody env with
    | ok rm =>
      obtain ⟨r, msgs⟩ := rm
      intro _
      simp [configure_device, hc, hb]
    | error em =>
      obtain ⟨e, msgs⟩ := em
      intro _
      simp [configure_device, hc, hb]

/-- Witness for C9: the demo success session is opened and closed. -/
theorem claim9_witness :
    Event.closed ∈ (configure_device envSucc (lc "10.0.0.1")).2 :=
  claim9_session_released envSucc (lc "10.0.0.1") (by decide)

/-- C10 counterexample: `Hostname: A\nHostname: B\n` contains no family
marker and contains a line beginning `Hostname: B`, yet the extractor
returns `{"hostname": "A"}` — the token of the leftmost `Hostname:`
line — not `{"hostname": "B"}` as the claim's per-line reading
requires. -/
theorem claim10_counterexample :
    (∀ m ∈ version_list, foundPos m (lc "Hostname: A\nHostname: B\n") = false)
      ∧ (lc "Hostname: B\n") ∈ lineStarts (lc "Hostname: A\nHostname: B\n")
      ∧ extract_hostname (lc "Hostname: A\nHostname: B\n")
          = Except.ok [("hostname", lc "A")]
      ∧ extract_hostname (lc "Hostname: A\nHostname: B\n")
          ≠ Except.ok [("hostname", lc "B")] :=
  ⟨by decide, by decide, by decide, by decide⟩

/-- C10 amended: for every version text in which no family marker occurs
at a position greater than 0, `software_ver_check` returns the Junos
pattern (the last marker iterated); consequently, whenever such text
contains a line beginning `Hostname: <token>`, `extract_hostname`
returns `{"hostname": w}` where `w` is the token captured at the
LEFTMOST line start matching the Junos pattern (not necessarily the
given line's token); and when the Junos pattern matches nowhere it fails
with the generic `AttributeError` of the failed regex search. -/
theorem claim10_junos_fallthrough (t : List Char)
    (hnm : ∀ m ∈ version_list, foundPos m t = false) :
    software_ver_check t = [HPattern.junos]
      ∧ (∀ tok rest, (hostnameLit ++ (' ' :: (tok ++ rest))) ∈ lineStarts t →
          tok ≠ [] → tok.all (fun c => !isSpace c) = true →
          rest.takeWhile (fun c => !isSpace c) = [] →
          ∃ w pre line post,
            extract_hostname t = Except.ok [("hostname", w)]
              ∧ lineStarts t = pre ++ line :: post
              ∧ (∀ l ∈ pre, matchJunosAt l = none)
              ∧ matchJunosAt line = some w)
      ∧ (List.findSome? matchJunosAt (lineStarts t) = none →
          extract_hostname t = Except.error (lc "AttributeError")) := by
  have hfind : version_list.find? (fun v => foundPos v t) = none :=
    List.find?_eq_none.mpr (by intro x hx; simp [hnm x hx])
  have hsvc : software_ver_check t = [HPattern.junos] := by
    show patternFor (loopPick t version_list []) = _
    rw [loopPick_eq_find? t version_list [], hfind]
    decide
  refine ⟨hsvc, ?_, ?_⟩
  · intro tok rest hline htok1 htok2 hrest
    have hm : (matchJunosAt (hostnameLit ++ (' ' :: (tok ++ rest)))).isSome = true := by
      rw [matchJunosAt_shaped tok rest htok1 htok2 hrest]
      rfl
    have hsome := findSome?_isSome_of_mem matchJunosAt hline hm
    obtain ⟨w, hw⟩ := Option.isSome_iff_exists.mp hsome
    obtain ⟨pre, line, post, hsplit, hpre, hmatch⟩ := findSome?_eq_some_split hw
    exact ⟨w, pre, line, post,
      extract_ok_of_search hsvc (by simpa [regexSearch] using hw),
      hsplit, hpre, hmatch⟩
  · intro hnone
    exact extract_err_of_search hsvc (by simpa [regexSearch] using hnone)

/-- Witness for C10: markerless text whose only `Hostname:` line carries
`R9` extracts `{"hostname": "R9"}` via the fallthrough Junos pattern,
and `R9` is the leftmost match's token. -/
theorem claim10_witness :
    (∀ m ∈ version_list, foundPos m (lc "some banner\nHostname: R9\n") = false)
      ∧ (∃ w pre line post,
          extract_hostname (lc "some banner\nHostname: R9\n")
              = Except.ok [("hostname", w)]
            ∧ lineStarts (lc "some banner\nHostname: R9\n") = pre ++ line :: post
            ∧ (∀ l ∈ pre, matchJunosAt l = none)
            ∧ matchJunosAt line = some w)
      ∧ extract_hostname (lc "some banner\nHostname: R9\n")
          = Except.ok [("hostname", lc "R9")] :=
  ⟨by decide,
    (claim10_junos_fallthrough (lc "some banner\nHostname: R9\n") (by decide)).2.1
      (lc "R9") (lc "\n") (by decide) (by decide) (by decide) (by decide),
    by decide⟩

end NetdevConfig
